import Mathlib

/-!
Verification of the OpenClaw AI-SDK provider adapter
(`src/openclaw-provider.ts`): a shallow embedding of the
prompt-to-input translator, the tool mapper, the finish-reason and usage
mapping, and the streaming state machine of `doStream`, together with
theorems settling the specification claims.

JavaScript-specific behaviour is embedded faithfully:
  * `if (x)` on strings is truthiness: the empty string is falsy;
  * `a ?? b` is nullish coalescing: `Option.getD` (so `some ""` stays `""`);
  * mutable closure variables of `doStream` become an explicit
    `StreamState` threaded through a per-chunk step function.
External collaborators (`convertToBase64` from provider-utils,
`JSON.stringify` from the runtime) are embedded as executable pure
functions with the same observable contract.
-/

namespace OpenClaw

/-- JSON values, used for tool results and tool parameter schemas.
Numbers are modelled as integers (the adapter only passes them through). -/
inductive Json where
  | null : Json
  | bool (b : Bool) : Json
  | num (n : Int) : Json
  | str (s : String) : Json
  | arr (elems : List Json) : Json
  | obj (fields : List (String × Json)) : Json
deriving Repr

/-- Escaping of one character inside a JSON string literal,
as the JavaScript runtime's `JSON.stringify` does. -/
def escapeJsonChar (c : Char) : String :=
  if c = '"' then "\\\""
  else if c = '\\' then "\\\\"
  else if c = '\n' then "\\n"
  else if c = '\t' then "\\t"
  else if c = '\r' then "\\r"
  else String.singleton c

def escapeJsonString (s : String) : String :=
  String.join (s.toList.map escapeJsonChar)

mutual

/-- Embedding of the runtime collaborator `JSON.stringify` on the
`Json` model (compact form, no added whitespace). -/
def Json.stringify : Json → String
  | .null => "null"
  | .bool true => "true"
  | .bool false => "false"
  | .num n => toString n
  | .str s => "\"" ++ escapeJsonString s ++ "\""
  | .arr es => "[" ++ Json.stringifyArray es ++ "]"
  | .obj fs => "\x7b" ++ Json.stringifyFields fs ++ "\x7d"

def Json.stringifyArray : List Json → String
  | [] => ""
  | [e] => Json.stringify e
  | e :: e2 :: es => Json.stringify e ++ "," ++ Json.stringifyArray (e2 :: es)

def Json.stringifyFields : List (String × Json) → String
  | [] => ""
  | [(k, v)] => "\"" ++ escapeJsonString k ++ "\":" ++ Json.stringify v
  | (k, v) :: f2 :: fs =>
      "\"" ++ escapeJsonString k ++ "\":" ++ Json.stringify v ++ "," ++
        Json.stringifyFields (f2 :: fs)

end

/-- The base64 alphabet lookup used by `convertToBase64`. -/
def b64Char (n : Nat) : Char :=
  ("ABCDEFGHIJKLMNOPQRSTUVWXYZabcdefghijklmnopqrstuvwxyz0123456789+/".toList).getD n 'A'

/-- Embedding of the provider-utils collaborator `convertToBase64`:
standard base64 of a byte sequence. -/
def convertToBase64 : List Nat → String
  | [] => ""
  | [b0] =>
      String.mk [b64Char (b0 / 4 % 64), b64Char (b0 % 4 * 16)] ++ "=="
  | [b0, b1] =>
      String.mk [b64Char (b0 / 4 % 64), b64Char (b0 % 4 * 16 + b1 / 16 % 16),
        b64Char (b1 % 16 * 4)] ++ "="
  | b0 :: b1 :: b2 :: rest =>
      String.mk [b64Char (b0 / 4 % 64), b64Char (b0 % 4 * 16 + b1 / 16 % 16),
        b64Char (b1 % 16 * 4 + b2 / 64 % 4), b64Char (b2 % 64)] ++
        convertToBase64 rest

/-- Source `isHttpUrl`: the case-insensitive anchored regex
test for an `http://` or `https://` prefix. -/
def isHttpUrl (value : String) : Bool :=
  value.toLower.startsWith "http://" || value.toLower.startsWith "https://"

/-! ## Vendor response data model (zod schemas) -/

/-- `status` enum of `openclawResponseSchema`. -/
inductive ResponseStatus where
  | in_progress | completed | failed | cancelled | incomplete
deriving Repr, DecidableEq

/-- The literal wire string of a response status (what the zod enum parsed). -/
def ResponseStatus.toRawString : ResponseStatus → String
  | .in_progress => "in_progress"
  | .completed => "completed"
  | .failed => "failed"
  | .cancelled => "cancelled"
  | .incomplete => "incomplete"

/-- Item lifecycle status of `openclawOutputItemSchema`. -/
inductive ItemStatus where
  | in_progress | completed
deriving Repr, DecidableEq

/-- `openclawUsageSchema`: non-negative integer token counts. -/
structure Usage where
  input_tokens : Nat
  output_tokens : Nat
  total_tokens : Nat
deriving Repr, DecidableEq

/-- `openclawOutputItemSchema`: one vendor output item.  A `message`
item's content is the list of its `output_text` texts (the zod schema
forces every content part to be an `output_text`). -/
inductive OutputItem where
  | message (id : String) (content : List String) (status : Option ItemStatus)
  | function_call (id call_id name arguments : String) (status : Option ItemStatus)
  | reasoning (id : String) (content summary : Option String)
deriving Repr, DecidableEq

/-- `error` field of `openclawResponseSchema`. -/
structure ResponseError where
  code : String
  message : String
deriving Repr, DecidableEq

/-- `openclawResponseSchema`: one vendor response object. -/
structure VendorResponse where
  id : String
  created_at : Int
  status : ResponseStatus
  model : String
  output : List OutputItem
  usage : Usage
  error : Option ResponseError
deriving Repr, DecidableEq

/-- `openclawStreamEventSchema`: the tagged union of vendor stream events. -/
inductive StreamEvent where
  | response_created (response : VendorResponse)
  | response_in_progress (response : VendorResponse)
  | response_completed (response : VendorResponse)
  | response_failed (response : VendorResponse)
  | output_text_delta (item_id : String) (output_index content_index : Int) (delta : String)
  | output_text_done (item_id : String) (output_index content_index : Int) (text : String)
  | output_item_added (output_index : Int) (item : OutputItem)
  | output_item_done (output_index : Int) (item : OutputItem)
  | content_part_added (item_id : String) (output_index content_index : Int) (part : String)
  | content_part_done (item_id : String) (output_index content_index : Int) (part : String)
deriving Repr, DecidableEq

/-! ## Normalized (AI-SDK side) data model -/

/-- Unified + raw finish reason, as returned by `mapFinishReason`. -/
structure FinishReason where
  unified : String
  raw : String
deriving Repr, DecidableEq

/-- The normalized usage object built by `mapUsage` (its `raw` field
carries the vendor usage verbatim). -/
structure MappedUsage where
  inputTotal : Nat
  inputNoCache : Nat
  inputCacheRead : Nat
  inputCacheWrite : Nat
  outputTotal : Nat
  outputText : Nat
  outputReasoning : Nat
  raw : Usage
deriving Repr, DecidableEq

/-- Source `mapUsage`: direct repackaging of vendor token counts,
cache counts always zero. -/
def mapUsage (usage : Usage) : MappedUsage :=
  { inputTotal := usage.input_tokens
    inputNoCache := usage.input_tokens
    inputCacheRead := 0
    inputCacheWrite := 0
    outputTotal := usage.output_tokens
    outputText := usage.output_tokens
    outputReasoning := 0
    raw := usage }

/-- Source `mapFinishReason`: tool-call observation or `incomplete`
status forces "tool-calls"; otherwise dispatch on the literal status. -/
def mapFinishReason (status : ResponseStatus) (sawToolCall : Bool) : FinishReason :=
  if sawToolCall || status = ResponseStatus.incomplete then
    { unified := "tool-calls", raw := "tool_calls" }
  else
    match status with
    | .completed => { unified := "stop", raw := "completed" }
    | .failed => { unified := "error", raw := "failed" }
    | s => { unified := "other", raw := s.toRawString }

/-! ## Normalized prompt data model (`LanguageModelV3Prompt`) -/

/-- Payload of a file content part: a `URL` handle, a string, or raw bytes. -/
inductive FileData where
  | url (u : String)
  | str (s : String)
  | bytes (bs : List Nat)
deriving Repr, DecidableEq

/-- Content parts of user/assistant messages. -/
inductive PromptPart where
  | text (text : String)
  | file (mediaType : String) (data : FileData) (filename : Option String)
  | toolCall (toolCallId toolName input : String)
  | reasoning (text : String)
deriving Repr, DecidableEq

/-- The `output` union of a tool-result part
(`LanguageModelV3ToolResultPart["output"]`); `other` stands for any
payload kind outside the kinds named in the source switch. -/
inductive ToolOutput where
  | text (value : String)
  | errorText (value : String)
  | json (value : Json)
  | errorJson (value : Json)
  | executionDenied (reason : Option String)
  | content (value : Json)
  | other (payload : Json)
deriving Repr

/-- Content parts of a tool message: a tool result, or a human
approval decision (`tool-approval-response`). -/
inductive ToolPart where
  | toolResult (toolCallId : String) (output : ToolOutput)
  | toolApprovalResponse (approvalId : String) (approved : Bool)
deriving Repr

/-- Message content as the source's `normalizeContentParts` sees it:
a plain string or an array of parts. -/
inductive MessageContent where
  | str (s : String)
  | parts (ps : List PromptPart)
deriving Repr, DecidableEq

/-- One normalized prompt message. -/
inductive Message where
  | system (content : MessageContent)
  | developer (content : MessageContent)
  | user (content : MessageContent)
  | assistant (content : MessageContent)
  | tool (content : List ToolPart)
deriving Repr

/-! ## Vendor input items (request side) -/

/-- `OpenClawInputPart`: one content part of a vendor `message` input item. -/
inductive OpenClawInputPart where
  | input_text (text : String)
  | output_text (text : String)
  | input_image_url (url : String)
  | input_image_base64 (media_type data : String)
  | input_file_url (url : String)
  | input_file_base64 (media_type data : String) (filename : Option String)
deriving Repr, DecidableEq

/-- `OpenClawInputItem`: one vendor input item.  A `message` item's
content is a plain string (system/developer) or a part list
(user/assistant), mirroring the source's union. -/
inductive OpenClawInputItem where
  | messageStr (role : String) (content : String)
  | messageParts (role : String) (content : List OpenClawInputPart)
  | function_call (call_id name arguments : String)
  | function_call_output (call_id output : String)
  | reasoning (content : String)
deriving Repr, DecidableEq

/-- Source `toToolOutputString`: string coercion of a tool result. -/
def toToolOutputString (output : ToolOutput) : String :=
  match output with
  | .text value => value
  | .errorText value => value
  | .json value => value.stringify
  | .errorJson value => value.stringify
  | .executionDenied reason => reason.getD "Tool execution denied."
  | .content value => value.stringify
  | .other payload => payload.stringify

/-- Source `normalizeContentParts`: a string becomes one text part,
an array passes through. -/
def normalizeContentParts (content : MessageContent) : List PromptPart :=
  match content with
  | .str s => [PromptPart.text s]
  | .parts ps => ps

/-- The file-part branch of `convertPromptToInput`: wildcard image
media type normalized to JPEG, image/file selection by `image/` prefix,
URL handles and absolute http(s) strings become `url` sources, anything
else a `base64` source (files also carry the filename). -/
def convertFilePart (mediaType0 : String) (data : FileData) (filename : Option String) :
    OpenClawInputPart :=
  let mediaType := if mediaType0 = "image/*" then "image/jpeg" else mediaType0
  let isImage := mediaType.startsWith "image/"
  match data with
  | .url u =>
      if isImage then OpenClawInputPart.input_image_url u
      else OpenClawInputPart.input_file_url u
  | .str s =>
      if isHttpUrl s then
        if isImage then OpenClawInputPart.input_image_url s
        else OpenClawInputPart.input_file_url s
      else if isImage then OpenClawInputPart.input_image_base64 mediaType s
      else OpenClawInputPart.input_file_base64 mediaType s filename
  | .bytes bs =>
      let d := convertToBase64 bs
      if isImage then OpenClawInputPart.input_image_base64 mediaType d
      else OpenClawInputPart.input_file_base64 mediaType d filename

/-- The user/assistant part loop of `convertPromptToInput`: text and
file parts accumulate into the content-part buffer (first component),
tool-call and reasoning parts are pushed immediately as top-level items
(second component), in part order. -/
def userAssistantLoop (assistant : Bool) :
    List PromptPart → List OpenClawInputPart × List OpenClawInputItem
  | [] => ([], [])
  | p :: ps =>
      let rest := userAssistantLoop assistant ps
      match p with
      | .text t =>
          ((if assistant then OpenClawInputPart.output_text t
            else OpenClawInputPart.input_text t) :: rest.1, rest.2)
      | .file mt d fn => (convertFilePart mt d fn :: rest.1, rest.2)
      | .toolCall id name inp =>
          (rest.1, OpenClawInputItem.function_call id name inp :: rest.2)
      | .reasoning t => (rest.1, OpenClawInputItem.reasoning t :: rest.2)

/-- The texts of the text parts of a system/developer message, in order
(the `.filter(type text).map(.text)` pipeline of the source). -/
def systemTextParts (content : MessageContent) : List String :=
  (normalizeContentParts content).filterMap fun p =>
    match p with
    | .text t => some t
    | _ => none

/-- The system/developer branch of `convertPromptToInput`: newline-join
the text parts; a falsy (empty) joined string emits nothing. -/
def systemLikeItems (role : String) (content : MessageContent) : List OpenClawInputItem :=
  let text := String.intercalate "\n" (systemTextParts content)
  if text = "" then [] else [OpenClawInputItem.messageStr role text]

/-- The user/assistant branch of `convertPromptToInput`: immediate
items in part order, then one `message` item iff the content-part
buffer is non-empty. -/
def userAssistantItems (role : String) (assistant : Bool) (content : MessageContent) :
    List OpenClawInputItem :=
  let r := userAssistantLoop assistant (normalizeContentParts content)
  r.2 ++ (if r.1.isEmpty then [] else [OpenClawInputItem.messageParts role r.1])

/-- The tool branch of `convertPromptToInput`: approval responses are
skipped, every other part becomes one `function_call_output`. -/
def convertToolParts : List ToolPart → List OpenClawInputItem
  | [] => []
  | p :: ps =>
      match p with
      | .toolApprovalResponse _ _ => convertToolParts ps
      | .toolResult callId out =>
          OpenClawInputItem.function_call_output callId (toToolOutputString out) ::
            convertToolParts ps

/-- Items contributed by one message. -/
def convertMessage : Message → List OpenClawInputItem
  | .system c => systemLikeItems "system" c
  | .developer c => systemLikeItems "developer" c
  | .user c => userAssistantItems "user" false c
  | .assistant c => userAssistantItems "assistant" true c
  | .tool ps => convertToolParts ps

/-- Source `convertPromptToInput`: one pass over the messages,
appending each message's items in order. -/
def convertPromptToInput : List Message → List OpenClawInputItem
  | [] => []
  | m :: ms => convertMessage m ++ convertPromptToInput ms

/-! ## Tool mapping -/

/-- A call warning (`SharedV3Warning`), as pushed by `getArgs`/`mapTools`. -/
structure Warning where
  type : String
  feature : String
  details : Option String
deriving Repr, DecidableEq

/-- A generic tool handed to `mapTools`: function-typed or provider-typed
(the two capability kinds the source distinguishes). -/
inductive Tool where
  | function (name : String) (description : Option String) (inputSchema : Json)
  | provider (id : String) (name : String) (args : Json)
deriving Repr

def isFunctionTool : Tool → Bool
  | .function _ _ _ => true
  | _ => false

def isProviderTool : Tool → Bool
  | .provider _ _ _ => true
  | _ => false

/-- The vendor `{type:"function", function:{name, description, parameters}}`
record built by `mapTools` (the constant `type` tag is implicit). -/
structure OpenClawFunctionTool where
  name : String
  description : Option String
  parameters : Json
deriving Repr

/-- The warning `mapTools` pushes when provider-typed tools are present. -/
def providerToolsWarning : Warning :=
  { type := "unsupported", feature := "providerTools",
    details := some "OpenClaw responses only support function tools" }

/-- The `{name, description, parameters}` record of one function tool. -/
def fnRecord : Tool → Option OpenClawFunctionTool
  | .function name desc schema => some ⟨name, desc, schema⟩
  | _ => none

/-- Source `mapTools`: `none` input or empty list yields no tools field;
provider-typed tools push one unsupported warning; function tools map
1:1; an empty filtered list also yields no tools field. -/
def mapTools (tools : Option (List Tool)) (warnings : List Warning) :
    Option (List OpenClawFunctionTool) × List Warning :=
  match tools with
  | none => (none, warnings)
  | some ts =>
      if ts.length = 0 then (none, warnings)
      else
        let functionTools := ts.filter isFunctionTool
        let providerTools := ts.filter isProviderTool
        let warnings1 :=
          if providerTools.length > 0 then warnings ++ [providerToolsWarning]
          else warnings
        if functionTools.length = 0 then (none, warnings1)
        else (some (functionTools.filterMap fnRecord), warnings1)

/-! ## Streaming state machine (`doStream`) -/

/-- One parsed SSE chunk, as `createEventSourceResponseHandler` hands it
to the transform: a validated event or a validation failure, both
carrying the raw value. -/
inductive Chunk where
  | ok (rawValue : String) (value : StreamEvent)
  | err (rawValue : String) (error : String)
deriving Repr, DecidableEq

def Chunk.rawValue : Chunk → String
  | .ok r _ => r
  | .err r _ => r

/-- One normalized stream event enqueued by `doStream`.  The
`responseMetadata` timestamp is carried as the vendor `created_at`
(the `Date` construction is runtime glue); `finish` carries usage,
finish reason and the optional response-id provider metadata. -/
inductive NormalizedEvent where
  | streamStart (warnings : List Warning)
  | raw (rawValue : String)
  | error (error : String)
  | responseMetadata (id : String) (created_at : Int) (modelId : String)
  | textStart (id : String)
  | textDelta (id : String) (delta : String)
  | textEnd (id : String)
  | toolCall (toolCallId toolName input : String) (itemId : String)
  | reasoningStart (id : String)
  | reasoningDelta (id : String) (delta : String)
  | reasoningEnd (id : String)
  | finish (usage : MappedUsage) (finishReason : FinishReason) (responseId : Option String)
deriving Repr, DecidableEq

/-- The mutable closure variables of `doStream`, as one state record. -/
structure StreamState where
  responseId : Option String
  sawToolCall : Bool
  usage : Option MappedUsage
  finishReason : Option FinishReason
  activeTextId : Option String
deriving Repr, DecidableEq

/-- Initial state of one streaming call. -/
def initState : StreamState :=
  { responseId := none, sawToolCall := false, usage := none,
    finishReason := none, activeTextId := none }

/-- The `output_item.added`/`.done` handler: a `function_call` item
sets the tool-call flag and emits a full `tool-call`; a `reasoning`
item emits start/delta/end together iff its summary-or-content text is
truthy (present and non-empty); `message` items emit nothing. -/
def processOutputItem (s : StreamState) (item : OutputItem) :
    StreamState × List NormalizedEvent :=
  match item with
  | .function_call id call_id name args _ =>
      ({ s with sawToolCall := true },
       [NormalizedEvent.toolCall call_id name args id])
  | .reasoning id content summary =>
      (s,
       match (match summary with | some t => some t | none => content) with
       | some t =>
           if t = "" then []
           else [NormalizedEvent.reasoningStart id,
                 NormalizedEvent.reasoningDelta id t,
                 NormalizedEvent.reasoningEnd id]
       | none => [])
  | .message _ _ _ => (s, [])

/-- The event dispatch of the `transform` callback of `doStream` on one
chunk (the raw passthrough is factored out into `processChunk`): in-band
error (with finish reason marked) on a failed chunk, then dispatch on
the event type.  The `output_text.delta` branch mirrors the JavaScript
truthiness test `if (!activeTextId)`: a stored empty-string id counts
as unset. -/
def processChunkCore (s : StreamState) (c : Chunk) :
    StreamState × List NormalizedEvent :=
  match c with
  | .err _ e =>
      ({ s with finishReason := some { unified := "error", raw := "error" } },
       [NormalizedEvent.error e])
  | .ok _ ev =>
      match ev with
      | .response_created r =>
          ({ s with responseId := some r.id },
           [NormalizedEvent.responseMetadata r.id r.created_at r.model])
      | .output_text_delta item_id _ _ delta =>
          match s.activeTextId with
          | some a =>
              if a = "" then
                ({ s with activeTextId := some item_id },
                 [NormalizedEvent.textStart item_id,
                  NormalizedEvent.textDelta item_id delta])
              else (s, [NormalizedEvent.textDelta a delta])
          | none =>
              ({ s with activeTextId := some item_id },
               [NormalizedEvent.textStart item_id,
                NormalizedEvent.textDelta item_id delta])
      | .output_item_added _ item => processOutputItem s item
      | .output_item_done _ item => processOutputItem s item
      | .response_completed r =>
          ({ s with usage := some (mapUsage r.usage),
                    finishReason := some (mapFinishReason r.status s.sawToolCall) },
           [])
      | .response_failed r =>
          ({ s with usage := some (mapUsage r.usage),
                    finishReason := some (mapFinishReason r.status s.sawToolCall) },
           [])
      | _ => (s, [])

/-- The full `transform` callback on one chunk: a `raw` event first when
`includeRawChunks` is set (the source enqueues it before the validation
check), then the event dispatch of `processChunkCore`. -/
def processChunk (includeRawChunks : Bool) (s : StreamState) (c : Chunk) :
    StreamState × List NormalizedEvent :=
  let core := processChunkCore s c
  (core.1,
   (if includeRawChunks then [NormalizedEvent.raw c.rawValue] else []) ++ core.2)

/-- Folding the transform over a whole chunk sequence. -/
def processChunks (includeRawChunks : Bool) (s : StreamState) :
    List Chunk → StreamState × List NormalizedEvent
  | [] => (s, [])
  | c :: cs =>
      let r := processChunk includeRawChunks s c
      let r2 := processChunks includeRawChunks r.1 cs
      (r2.1, r.2 ++ r2.2)

/-- The provider metadata of the terminal `finish` event: the stored
response id when it is truthy (`responseId ? {...} : undefined`). -/
def responseIdMetadata (responseId : Option String) : Option String :=
  match responseId with
  | some rid => if rid = "" then none else some rid
  | none => none

/-- The `flush` callback of `doStream`: close a truthy open text
segment, then emit the terminal `finish` only when usage was captured,
with the `?? other/unknown` finish-reason fallback and the truthiness
test on the stored response id. -/
def flushStream (s : StreamState) : List NormalizedEvent :=
  (match s.activeTextId with
   | some a => if a = "" then [] else [NormalizedEvent.textEnd a]
   | none => []) ++
  (match s.usage with
   | none => []
   | some u =>
       [NormalizedEvent.finish u
         (s.finishReason.getD { unified := "other", raw := "unknown" })
         (responseIdMetadata s.responseId)])

/-- All events produced in response to the fed chunks: the transform
outputs followed by the flush outputs. -/
def reconstruct (includeRawChunks : Bool) (chunks : List Chunk) : List NormalizedEvent :=
  (processChunks includeRawChunks initState chunks).2 ++
    flushStream (processChunks includeRawChunks initState chunks).1

/-- The full normalized stream of one `doStream` call: the `start`
callback's `stream-start` first, then the reconstruction. -/
def runStream (includeRawChunks : Bool) (warnings : List Warning)
    (chunks : List Chunk) : List NormalizedEvent :=
  NormalizedEvent.streamStart warnings :: reconstruct includeRawChunks chunks

/-! ## Observation predicates and sample values -/

def isTextStart : NormalizedEvent → Bool
  | .textStart _ => true
  | _ => false

def isTextEnd : NormalizedEvent → Bool
  | .textEnd _ => true
  | _ => false

def isFinish : NormalizedEvent → Bool
  | .finish _ _ _ => true
  | _ => false

/-- A validated `response.completed` or `response.failed` chunk: the
only chunks that capture terminal usage. -/
def isTerminalChunk : Chunk → Bool
  | .ok _ (.response_completed _) => true
  | .ok _ (.response_failed _) => true
  | _ => false

def hasTerminal (cs : List Chunk) : Bool := cs.any isTerminalChunk

/-- The item id of a validated `response.output_text.delta` chunk. -/
def deltaId : Chunk → Option String
  | .ok _ (.output_text_delta i _ _ _) => some i
  | _ => none

/-- The item ids of the validated `output_text.delta` chunks, in order. -/
def deltaIds (cs : List Chunk) : List String := cs.filterMap deltaId

/-- The payload of a `text-delta` event. -/
def textDeltaPayload : NormalizedEvent → Option String
  | .textDelta _ d => some d
  | _ => none

/-- The translation of one tool-message part: approval responses give
nothing, a result gives one `function_call_output` item. -/
def toolItemOf : ToolPart → Option OpenClawInputItem
  | .toolApprovalResponse _ _ => none
  | .toolResult callId out =>
      some (OpenClawInputItem.function_call_output callId (toToolOutputString out))

def sampleUsage : Usage := { input_tokens := 3, output_tokens := 5, total_tokens := 8 }

def sampleResponse (st : ResponseStatus) : VendorResponse :=
  { id := "resp1", created_at := 100, status := st, model := "m",
    output := [], usage := sampleUsage, error := none }

/-! ## Helper lemmas -/

theorem convertToolParts_eq_filterMap (ps : List ToolPart) :
    convertToolParts ps = ps.filterMap toolItemOf := by
  induction ps with
  | nil => rfl
  | cons p ps ih => cases p <;> simp [convertToolParts, toolItemOf, ih]

/-! ### Step lemmas about the stream transform -/

theorem processChunk_fst (incl : Bool) (s : StreamState) (c : Chunk) :
    (processChunk incl s c).1 = (processChunkCore s c).1 := rfl

theorem processChunk_snd (incl : Bool) (s : StreamState) (c : Chunk) :
    (processChunk incl s c).2 =
      (if incl then [NormalizedEvent.raw c.rawValue] else []) ++
        (processChunkCore s c).2 := rfl

/-- The transform never emits `stream-start`, `text-end` or `finish`
events: those come only from the `start` and `flush` callbacks. -/
theorem processChunkCore_mem (s : StreamState) (c : Chunk) (e : NormalizedEvent)
    (he : e ∈ (processChunkCore s c).2) :
    isFinish e = false ∧ isTextEnd e = false := by
  rcases c with ⟨r, ev⟩ | ⟨r, err⟩
  · cases ev with
    | response_created r1 =>
        simp only [processChunkCore, List.mem_singleton] at he
        subst he; exact ⟨rfl, rfl⟩
    | response_in_progress r1 => simp [processChunkCore] at he
    | response_completed r1 => simp [processChunkCore] at he
    | response_failed r1 => simp [processChunkCore] at he
    | output_text_delta i oi ci d =>
        rcases hA : s.activeTextId with _ | a
        · simp only [processChunkCore, hA, List.mem_cons, List.mem_singleton,
            List.not_mem_nil, or_false] at he
          rcases he with he | he <;> subst he <;> exact ⟨rfl, rfl⟩
        · by_cases ha : a = "" <;>
            simp only [processChunkCore, hA, ha, if_pos, if_neg, List.mem_cons,
              List.mem_singleton, List.not_mem_nil, or_false, if_true, if_false,
              reduceIte] at he
          · rcases he with he | he <;> subst he <;> exact ⟨rfl, rfl⟩
          · subst he; exact ⟨rfl, rfl⟩
    | output_text_done i oi ci t => simp [processChunkCore] at he
    | output_item_added oi item =>
        simp only [processChunkCore] at he
        cases item with
        | message id content st => simp [processOutputItem] at he
        | function_call id cid nm args st =>
            simp only [processOutputItem, List.mem_singleton] at he
            subst he; exact ⟨rfl, rfl⟩
        | reasoning id content summary =>
            simp only [processOutputItem] at he
            rcases summary with _ | t
            · rcases content with _ | t
              · simp at he
              · by_cases ht : t = "" <;> simp only [ht, reduceIte, if_true, if_false] at he
                · simp at he
                · simp only [List.mem_cons, List.mem_singleton, List.not_mem_nil,
                    or_false] at he
                  rcases he with he | he | he <;> subst he <;> exact ⟨rfl, rfl⟩
            · by_cases ht : t = "" <;> simp only [ht, reduceIte, if_true, if_false] at he
              · simp at he
              · simp only [List.mem_cons, List.mem_singleton, List.not_mem_nil,
                  or_false] at he
                rcases he with he | he | he <;> subst he <;> exact ⟨rfl, rfl⟩
    | output_item_done oi item =>
        simp only [processChunkCore] at he
        cases item with
        | message id content st => simp [processOutputItem] at he
        | function_call id cid nm args st =>
            simp only [processOutputItem, List.mem_singleton] at he
            subst he; exact ⟨rfl, rfl⟩
        | reasoning id content summary =>
            simp only [processOutputItem] at he
            rcases summary with _ | t
            · rcases content with _ | t
              · simp at he
              · by_cases ht : t = "" <;> simp only [ht, reduceIte, if_true, if_false] at he
                · simp at he
                · simp only [List.mem_cons, List.mem_singleton, List.not_mem_nil,
                    or_false] at he
                  rcases he with he | he | he <;> subst he <;> exact ⟨rfl, rfl⟩
            · by_cases ht : t = "" <;> simp only [ht, reduceIte, if_true, if_false] at he
              · simp at he
              · simp only [List.mem_cons, List.mem_singleton, List.not_mem_nil,
                  or_false] at he
                rcases he with he | he | he <;> subst he <;> exact ⟨rfl, rfl⟩
    | content_part_added i oi ci p => simp [processChunkCore] at he
    | content_part_done i oi ci p => simp [processChunkCore] at he
  · simp only [processChunkCore, List.mem_singleton] at he
    subst he; exact ⟨rfl, rfl⟩

/-- A chunk that is not a validated terminal event leaves the captured
usage untouched. -/
theorem processChunkCore_usage_not_terminal (s : StreamState) (c : Chunk)
    (h : isTerminalChunk c = false) :
    (processChunkCore s c).1.usage = s.usage := by
  rcases c with ⟨r, ev⟩ | ⟨r, err⟩
  · cases ev with
    | response_created r1 => rfl
    | response_in_progress r1 => rfl
    | response_completed r1 => exact absurd h (by simp [isTerminalChunk])
    | response_failed r1 => exact absurd h (by simp [isTerminalChunk])
    | output_text_delta i oi ci d =>
        rcases hA : s.activeTextId with _ | a
        · simp [processChunkCore, hA]
        · by_cases ha : a = "" <;> simp [processChunkCore, hA, ha]
    | output_text_done i oi ci t => rfl
    | output_item_added oi item => cases item <;> rfl
    | output_item_done oi item => cases item <;> rfl
    | content_part_added i oi ci p => rfl
    | content_part_done i oi ci p => rfl
  · rfl

/-- A validated terminal event always captures usage. -/
theorem processChunkCore_usage_terminal (s : StreamState) (c : Chunk)
    (h : isTerminalChunk c = true) :
    (processChunkCore s c).1.usage.isSome = true := by
  rcases c with ⟨r, ev⟩ | ⟨r, err⟩
  · cases ev <;> simp_all [isTerminalChunk, processChunkCore]
  · simp [isTerminalChunk] at h

/-- A chunk that is not a validated terminal event either preserves the
finish reason or sets it to the error reason (the failed-chunk branch). -/
theorem processChunkCore_finishReason_not_terminal (s : StreamState) (c : Chunk)
    (h : isTerminalChunk c = false) :
    (processChunkCore s c).1.finishReason = s.finishReason ∨
    (processChunkCore s c).1.finishReason =
      some { unified := "error", raw := "error" } := by
  rcases c with ⟨r, ev⟩ | ⟨r, err⟩
  · left
    cases ev with
    | response_created r1 => rfl
    | response_in_progress r1 => rfl
    | response_completed r1 => exact absurd h (by simp [isTerminalChunk])
    | response_failed r1 => exact absurd h (by simp [isTerminalChunk])
    | output_text_delta i oi ci d =>
        rcases hA : s.activeTextId with _ | a
        · simp [processChunkCore, hA]
        · by_cases ha : a = "" <;> simp [processChunkCore, hA, ha]
    | output_text_done i oi ci t => rfl
    | output_item_added oi item => cases item <;> rfl
    | output_item_done oi item => cases item <;> rfl
    | content_part_added i oi ci p => rfl
    | content_part_done i oi ci p => rfl
  · right; rfl

/-- A chunk that is not a validated `output_text.delta` leaves the
active text id untouched and emits neither `text-start` nor
`text-delta`. -/
theorem processChunkCore_not_delta (s : StreamState) (c : Chunk)
    (h : deltaId c = none) :
    (processChunkCore s c).1.activeTextId = s.activeTextId ∧
    (∀ e ∈ (processChunkCore s c).2, isTextStart e = false ∧
      textDeltaPayload e = none) := by
  rcases c with ⟨r, ev⟩ | ⟨r, err⟩
  · cases ev with
    | response_created r1 => exact ⟨rfl, by simp [processChunkCore, isTextStart, textDeltaPayload]⟩
    | response_in_progress r1 => exact ⟨rfl, by simp [processChunkCore]⟩
    | response_completed r1 => exact ⟨rfl, by simp [processChunkCore]⟩
    | response_failed r1 => exact ⟨rfl, by simp [processChunkCore]⟩
    | output_text_delta i oi ci d => simp [deltaId] at h
    | output_text_done i oi ci t => exact ⟨rfl, by simp [processChunkCore]⟩
    | output_item_added oi item =>
        refine ⟨by cases item <;> rfl, ?_⟩
        intro e he
        simp only [processChunkCore] at he
        cases item with
        | message id content st => simp [processOutputItem] at he
        | function_call id cid nm args st =>
            simp only [processOutputItem, List.mem_singleton] at he
            subst he; exact ⟨rfl, rfl⟩
        | reasoning id content summary =>
            simp only [processOutputItem] at he
            rcases summary with _ | t
            · rcases content with _ | t
              · simp at he
              · by_cases ht : t = "" <;> simp only [ht, reduceIte] at he
                · simp at he
                · simp only [List.mem_cons, List.mem_singleton,
                    List.not_mem_nil, or_false] at he
                  rcases he with he | he | he <;> subst he <;> exact ⟨rfl, rfl⟩
            · by_cases ht : t = "" <;> simp only [ht, reduceIte] at he
              · simp at he
              · simp only [List.mem_cons, List.mem_singleton,
                  List.not_mem_nil, or_false] at he
                rcases he with he | he | he <;> subst he <;> exact ⟨rfl, rfl⟩
    | output_item_done oi item =>
        refine ⟨by cases item <;> rfl, ?_⟩
        intro e he
        simp only [processChunkCore] at he
        cases item with
        | message id content st => simp [processOutputItem] at he
        | function_call id cid nm args st =>
            simp only [processOutputItem, List.mem_singleton] at he
            subst he; exact ⟨rfl, rfl⟩
        | reasoning id content summary =>
            simp only [processOutputItem] at he
            rcases summary with _ | t
            · rcases content with _ | t
              · simp at he
              · by_cases ht : t = "" <;> simp only [ht, reduceIte] at he
                · simp at he
                · simp only [List.mem_cons, List.mem_singleton,
                    List.not_mem_nil, or_false] at he
                  rcases he with he | he | he <;> subst he <;> exact ⟨rfl, rfl⟩
            · by_cases ht : t = "" <;> simp only [ht, reduceIte] at he
              · simp at he
              · simp only [List.mem_cons, List.mem_singleton,
                  List.not_mem_nil, or_false] at he
                rcases he with he | he | he <;> subst he <;> exact ⟨rfl, rfl⟩
    | content_part_added i oi ci p => exact ⟨rfl, by simp [processChunkCore]⟩
    | content_part_done i oi ci p => exact ⟨rfl, by simp [processChunkCore]⟩
  · refine ⟨rfl, ?_⟩
    intro e he
    simp only [processChunkCore, List.mem_singleton] at he
    subst he; exact ⟨rfl, rfl⟩

/-- With a truthy (non-empty) active text id, any chunk preserves that
id, never emits `text-start`, and every emitted `text-delta` carries
the stored id. -/
theorem processChunkCore_truthy_active (s : StreamState) (c : Chunk) (a : String)
    (hA : s.activeTextId = some a) (ha : a ≠ "") :
    (processChunkCore s c).1.activeTextId = some a ∧
    (∀ e ∈ (processChunkCore s c).2, isTextStart e = false) ∧
    (∀ i d, NormalizedEvent.textDelta i d ∈ (processChunkCore s c).2 → i = a) := by
  rcases hd : deltaId c with _ | i
  · obtain ⟨h1, h2⟩ := processChunkCore_not_delta s c hd
    refine ⟨h1.trans hA, fun e he => (h2 e he).1, fun i d hm => ?_⟩
    have := (h2 _ hm).2
    simp [textDeltaPayload] at this
  · rcases c with ⟨r, ev⟩ | ⟨r, err⟩
    · cases ev <;> simp [deltaId] at hd
      subst hd
      refine ⟨?_, ?_, ?_⟩ <;>
        simp [processChunkCore, hA, ha, isTextStart]
    · simp [deltaId] at hd

/-- A validated delta chunk arriving while the active text id is not
truthy opens a segment under the chunk's own item id. -/
theorem processChunkCore_delta_opens (s : StreamState) (c : Chunk) (i : String)
    (hd : deltaId c = some i)
    (hA : s.activeTextId = none ∨ s.activeTextId = some "") :
    (processChunkCore s c).1.activeTextId = some i ∧
    ((processChunkCore s c).2.filter isTextStart = [NormalizedEvent.textStart i]) ∧
    (∀ j d, NormalizedEvent.textDelta j d ∈ (processChunkCore s c).2 → j = i) := by
  rcases c with ⟨r, ev⟩ | ⟨r, err⟩
  · cases ev <;> simp [deltaId] at hd
    subst hd
    rcases hA with hA | hA <;>
      refine ⟨?_, ?_, ?_⟩ <;>
        simp [processChunkCore, hA, isTextStart]
  · simp [deltaId] at hd

theorem filter_eq_nil_of_all_false {α : Type} {p : α → Bool} {l : List α}
    (h : ∀ a ∈ l, p a = false) : l.filter p = [] := by
  rw [List.filter_eq_nil_iff]
  intro a ha
  simp [h a ha]

/-- Raw-passthrough events are neither finish, text boundary nor delta
events. -/
theorem raws_shape (incl : Bool) (r : String) (e : NormalizedEvent)
    (he : e ∈ (if incl then [NormalizedEvent.raw r] else [])) :
    isFinish e = false ∧ isTextEnd e = false ∧ isTextStart e = false ∧
      textDeltaPayload e = none := by
  cases incl <;> simp at he
  subst he
  exact ⟨rfl, rfl, rfl, rfl⟩

/-! ### Fold lemmas about whole chunk sequences -/

theorem processChunks_append (incl : Bool) (s : StreamState) (cs1 cs2 : List Chunk) :
    processChunks incl s (cs1 ++ cs2) =
      ((processChunks incl (processChunks incl s cs1).1 cs2).1,
       (processChunks incl s cs1).2 ++
         (processChunks incl (processChunks incl s cs1).1 cs2).2) := by
  induction cs1 generalizing s with
  | nil => simp [processChunks]
  | cons c cs ih => simp [processChunks, ih, List.append_assoc]

/-- The transform part of the stream never emits `finish` or `text-end`. -/
theorem processChunks_mem (incl : Bool) (s : StreamState) (cs : List Chunk)
    (e : NormalizedEvent) (he : e ∈ (processChunks incl s cs).2) :
    isFinish e = false ∧ isTextEnd e = false := by
  induction cs generalizing s with
  | nil => simp [processChunks] at he
  | cons c cs ih =>
      simp only [processChunks, List.mem_append] at he
      rcases he with he | he
      · rw [processChunk_snd, List.mem_append] at he
        rcases he with he | he
        · obtain ⟨h1, h2, _, _⟩ := raws_shape incl c.rawValue e he
          exact ⟨h1, h2⟩
        · exact processChunkCore_mem _ _ _ he
      · exact ih _ he

/-- Captured usage is present after a fold iff it was present before or
some validated terminal chunk occurred. -/
theorem processChunks_usage_isSome (incl : Bool) (s : StreamState) (cs : List Chunk) :
    (processChunks incl s cs).1.usage.isSome = (s.usage.isSome || hasTerminal cs) := by
  induction cs generalizing s with
  | nil => simp [processChunks, hasTerminal]
  | cons c cs ih =>
      simp only [processChunks]
      rw [ih]
      rcases ht : isTerminalChunk c with _ | _
      · rw [processChunk_fst, processChunkCore_usage_not_terminal _ _ ht]
        simp [hasTerminal, List.any_cons, ht]
      · have hu := processChunkCore_usage_terminal s c ht
        rw [processChunk_fst, hu]
        simp [hasTerminal, List.any_cons, ht]

/-- Without a validated terminal chunk, the captured usage is preserved. -/
theorem processChunks_usage_not_terminal (incl : Bool) (s : StreamState)
    (cs : List Chunk) (h : hasTerminal cs = false) :
    (processChunks incl s cs).1.usage = s.usage := by
  induction cs generalizing s with
  | nil => rfl
  | cons c cs ih =>
      have hc : isTerminalChunk c = false := by
        by_contra hb
        simp only [Bool.not_eq_false] at hb
        simp [hasTerminal, List.any_cons, hb] at h
      have hcs : hasTerminal cs = false := by
        simp only [hasTerminal, List.any_cons, Bool.or_eq_false_iff] at h
        exact h.2
      simp only [processChunks]
      rw [ih _ hcs, processChunk_fst, processChunkCore_usage_not_terminal _ _ hc]

/-- Without a validated terminal chunk, a finish reason already set to
the error reason stays the error reason. -/
theorem processChunks_finishReason_latch (incl : Bool) (s : StreamState)
    (cs : List Chunk) (h : hasTerminal cs = false)
    (he : s.finishReason = some { unified := "error", raw := "error" }) :
    (processChunks incl s cs).1.finishReason =
      some { unified := "error", raw := "error" } := by
  induction cs generalizing s with
  | nil => exact he
  | cons c cs ih =>
      have hc : isTerminalChunk c = false := by
        by_contra hb
        simp only [Bool.not_eq_false] at hb
        simp [hasTerminal, List.any_cons, hb] at h
      have hcs : hasTerminal cs = false := by
        simp only [hasTerminal, List.any_cons, Bool.or_eq_false_iff] at h
        exact h.2
      simp only [processChunks]
      refine ih _ hcs ?_
      rw [processChunk_fst]
      rcases processChunkCore_finishReason_not_terminal s c hc with h1 | h1
      · rw [h1]; exact he
      · exact h1

/-- With a truthy active text id, a whole fold preserves the id, emits
no `text-start`, and tags every `text-delta` with the stored id. -/
theorem processChunks_truthy_active (incl : Bool) (s : StreamState)
    (cs : List Chunk) (a : String) (hA : s.activeTextId = some a) (ha : a ≠ "") :
    (processChunks incl s cs).1.activeTextId = some a ∧
    (∀ e ∈ (processChunks incl s cs).2, isTextStart e = false) ∧
    (∀ i d, NormalizedEvent.textDelta i d ∈ (processChunks incl s cs).2 → i = a) := by
  induction cs generalizing s with
  | nil => exact ⟨hA, by simp [processChunks], by simp [processChunks]⟩
  | cons c cs ih =>
      obtain ⟨h1, h2, h3⟩ := processChunkCore_truthy_active s c a hA ha
      obtain ⟨g1, g2, g3⟩ := ih (processChunk incl s c).1 (by rw [processChunk_fst]; exact h1)
      refine ⟨g1, ?_, ?_⟩
      · intro e he
        simp only [processChunks, List.mem_append] at he
        rcases he with he | he
        · rw [processChunk_snd, List.mem_append] at he
          rcases he with he | he
          · exact (raws_shape incl c.rawValue e he).2.2.1
          · exact h2 e he
        · exact g2 e he
      · intro i d he
        simp only [processChunks, List.mem_append] at he
        rcases he with he | he
        · rw [processChunk_snd, List.mem_append] at he
          rcases he with he | he
          · have := (raws_shape incl c.rawValue _ he).2.2.2
            simp [textDeltaPayload] at this
          · exact h3 i d he
        · exact g3 i d he

/-- Starting with no active text id and all delta item ids non-empty:
the final active id is the first delta id, exactly one `text-start` is
emitted when some delta occurred (none otherwise), and every
`text-delta` carries the first delta id. -/
theorem processChunks_from_none (incl : Bool) (s : StreamState) (cs : List Chunk)
    (hA : s.activeTextId = none) (h : ∀ i ∈ deltaIds cs, i ≠ "") :
    (processChunks incl s cs).1.activeTextId = (deltaIds cs).head? ∧
    ((processChunks incl s cs).2.filter isTextStart =
      match (deltaIds cs).head? with
      | none => []
      | some i => [NormalizedEvent.textStart i]) ∧
    (∀ i d, NormalizedEvent.textDelta i d ∈ (processChunks incl s cs).2 →
      (deltaIds cs).head? = some i) := by
  induction cs generalizing s with
  | nil => exact ⟨hA, by simp [processChunks, deltaIds], by simp [processChunks]⟩
  | cons c cs ih =>
      rcases hd : deltaId c with _ | i
      · have hids : deltaIds (c :: cs) = deltaIds cs := by
          simp [deltaIds, List.filterMap_cons, hd]
        obtain ⟨h1, h2⟩ := processChunkCore_not_delta s c hd
        have hA2 : (processChunk incl s c).1.activeTextId = none := by
          rw [processChunk_fst, h1]; exact hA
        obtain ⟨g1, g2, g3⟩ := ih (processChunk incl s c).1 hA2
          (by rw [hids] at h; exact h)
        have hcfil : (processChunk incl s c).2.filter isTextStart = [] := by
          apply filter_eq_nil_of_all_false
          intro e he
          rw [processChunk_snd, List.mem_append] at he
          rcases he with he | he
          · exact (raws_shape incl c.rawValue e he).2.2.1
          · exact (h2 e he).1
        refine ⟨?_, ?_, ?_⟩
        · rw [hids]
          simpa [processChunks] using g1
        · rw [hids]
          simp only [processChunks, List.filter_append, hcfil, List.nil_append]
          exact g2
        · intro i d he
          rw [hids]
          simp only [processChunks, List.mem_append] at he
          rcases he with he | he
          · exfalso
            rw [processChunk_snd, List.mem_append] at he
            rcases he with he | he
            · have := (raws_shape incl c.rawValue _ he).2.2.2
              simp [textDeltaPayload] at this
            · have := (h2 _ he).2
              simp [textDeltaPayload] at this
          · exact g3 i d he
      · have hids : deltaIds (c :: cs) = i :: deltaIds cs := by
          simp [deltaIds, List.filterMap_cons, hd]
        have hi : i ≠ "" := by
          apply h
          rw [hids]
          exact List.mem_cons_self _ _
        obtain ⟨h1, h2, h3⟩ := processChunkCore_delta_opens s c i hd (Or.inl hA)
        have hA2 : (processChunk incl s c).1.activeTextId = some i := by
          rw [processChunk_fst]; exact h1
        obtain ⟨g1, g2, g3⟩ := processChunks_truthy_active incl
          (processChunk incl s c).1 cs i hA2 hi
        have hcfil : (processChunk incl s c).2.filter isTextStart =
            [NormalizedEvent.textStart i] := by
          rw [processChunk_snd, List.filter_append,
            filter_eq_nil_of_all_false
              (fun e he => (raws_shape incl c.rawValue e he).2.2.1),
            List.nil_append]
          exact h2
        refine ⟨?_, ?_, ?_⟩
        · rw [hids]
          simpa [processChunks] using g1
        · rw [hids]
          simp only [processChunks, List.filter_append, hcfil,
            filter_eq_nil_of_all_false g2, List.append_nil]
          rfl
        · intro j d he
          rw [hids]
          simp only [processChunks, List.mem_append] at he
          rcases he with he | he
          · rw [processChunk_snd, List.mem_append] at he
            rcases he with he | he
            · have := (raws_shape incl c.rawValue _ he).2.2.2
              simp [textDeltaPayload] at this
            · rw [h3 j d he]
              rfl
          · rw [g3 j d he]
            rfl

/-! ### Flush lemmas -/

theorem flushStream_filter_isFinish (s : StreamState) :
    (flushStream s).filter isFinish =
      (match s.usage with
       | none => []
       | some u =>
           [NormalizedEvent.finish u
             (s.finishReason.getD { unified := "other", raw := "unknown" })
             (responseIdMetadata s.responseId)]) := by
  rcases hA : s.activeTextId with _ | a <;> rcases hu : s.usage with _ | u <;>
    simp [flushStream, hA, hu, isFinish]

theorem flushStream_filter_isTextEnd (s : StreamState) :
    (flushStream s).filter isTextEnd =
      (match s.activeTextId with
       | some a => if a = "" then [] else [NormalizedEvent.textEnd a]
       | none => []) := by
  rcases hA : s.activeTextId with _ | a <;> rcases hu : s.usage with _ | u <;>
    simp [flushStream, hA, hu, isTextEnd]

theorem flushStream_no_text_events (s : StreamState) (e : NormalizedEvent)
    (he : e ∈ flushStream s) :
    isTextStart e = false ∧ textDeltaPayload e = none := by
  rcases hA : s.activeTextId with _ | a <;> rcases hu : s.usage with _ | u
  · simp [flushStream, hA, hu] at he
  · simp [flushStream, hA, hu] at he
    subst he; exact ⟨rfl, rfl⟩
  · by_cases ha : a = "" <;> simp [flushStream, hA, hu, ha] at he
    subst he; exact ⟨rfl, rfl⟩
  · by_cases ha : a = "" <;> simp [flushStream, hA, hu, ha] at he
    · subst he; exact ⟨rfl, rfl⟩
    · rcases he with he | he <;> subst he <;> exact ⟨rfl, rfl⟩

theorem flushStream_textEnd_mem (s : StreamState) (a : String)
    (hA : s.activeTextId = some a) (ha : a ≠ "") :
    NormalizedEvent.textEnd a ∈ flushStream s := by
  simp [flushStream, hA, ha]

/-! ## Claim theorems -/

/-- Claim C2: for every vendor response status and saw-tool-call flag,
`mapFinishReason` returns unified "tool-calls" whenever a tool call was
observed or the status is `incomplete`; otherwise `completed` maps to
"stop", `failed` maps to "error", and any other status maps to "other"
with the raw field carrying the literal status string. -/
theorem C2_mapFinishReason_policy (st : ResponseStatus) (saw : Bool) :
    ((saw = true ∨ st = ResponseStatus.incomplete) →
      mapFinishReason st saw = { unified := "tool-calls", raw := "tool_calls" }) ∧
    (saw = false → st = ResponseStatus.completed →
      mapFinishReason st saw = { unified := "stop", raw := "completed" }) ∧
    (saw = false → st = ResponseStatus.failed →
      mapFinishReason st saw = { unified := "error", raw := "failed" }) ∧
    (saw = false → st ≠ ResponseStatus.completed → st ≠ ResponseStatus.failed →
      st ≠ ResponseStatus.incomplete →
      mapFinishReason st saw = { unified := "other", raw := st.toRawString }) := by
  cases st <;> cases saw <;> decide

/-- Witness for C2 at a concrete input: `incomplete` with no tool call
still yields unified "tool-calls". -/
theorem C2_witness :
    mapFinishReason ResponseStatus.incomplete false =
      { unified := "tool-calls", raw := "tool_calls" } :=
  (C2_mapFinishReason_policy ResponseStatus.incomplete false).1 (Or.inr rfl)

/-- Claim C5: in every context, each content part of a tool message that
is a human approval decision is skipped, every other part produces
exactly one `function_call_output` item, and the output string follows
the coercion rule of `toToolOutputString`: text and error-text pass
through verbatim; json, error-json and content values are
JSON-serialized; execution-denied becomes its reason or the fixed
fallback; any other payload is JSON-serialized whole. -/
theorem C5_tool_message_translation (parts : List ToolPart) (rest : List Message) :
    (convertPromptToInput (Message.tool parts :: rest) =
      parts.filterMap toolItemOf ++ convertPromptToInput rest) ∧
    (∀ s, toToolOutputString (ToolOutput.text s) = s) ∧
    (∀ s, toToolOutputString (ToolOutput.errorText s) = s) ∧
    (∀ v, toToolOutputString (ToolOutput.json v) = v.stringify) ∧
    (∀ v, toToolOutputString (ToolOutput.errorJson v) = v.stringify) ∧
    (∀ v, toToolOutputString (ToolOutput.content v) = v.stringify) ∧
    (∀ r, toToolOutputString (ToolOutput.executionDenied r) =
      r.getD "Tool execution denied.") ∧
    (∀ p, toToolOutputString (ToolOutput.other p) = p.stringify) := by
  refine ⟨?_, fun _ => rfl, fun _ => rfl, fun _ => rfl, fun _ => rfl,
    fun _ => rfl, fun _ => rfl, fun _ => rfl⟩
  simp [convertPromptToInput, convertMessage, convertToolParts_eq_filterMap]

/-- Claim C8: the prompt-to-input translation is a pure function of the
prompt: two runs on equal prompts yield identical vendor input
sequences (the embedding of `convertPromptToInput` is deterministic and
has no external state). -/
theorem C8_translation_pure (p q : List Message) (h : p = q) :
    convertPromptToInput p = convertPromptToInput q := by rw [h]

/-- Witness for C8 at a concrete prompt. -/
theorem C8_witness :
    convertPromptToInput [Message.user (MessageContent.str "hi")] =
      convertPromptToInput [Message.user (MessageContent.str "hi")] :=
  C8_translation_pure _ _ rfl

/-- Claim C9: the first event of the normalized stream is always the
`stream-start` event carrying the warnings list, before anything else,
even when the vendor event sequence is empty. -/
theorem C9_stream_start_first (includeRawChunks : Bool) (w : List Warning)
    (chunks : List Chunk) :
    (runStream includeRawChunks w chunks).head? =
      some (NormalizedEvent.streamStart w) := rfl

/-- Counterexample to claim C6 as stated: a system message whose two
text parts are both empty newline-joins to the truthy string `"\n"`,
so a vendor message item with content `"\n"` IS emitted, although the
claim says such a message is elided. -/
theorem C6_counterexample :
    convertPromptToInput
        [Message.system (MessageContent.parts [PromptPart.text "", PromptPart.text ""])] =
      [OpenClawInputItem.messageStr "system" "\n"] := by rfl

/-- Claim C6 (amended): a system or developer message whose text parts
newline-join to the empty string — that is, with no text parts at all,
or exactly one text part that is empty — yields no vendor input item.
(With two or more all-empty text parts the join is a run of newlines,
which is truthy, and a message item is emitted.) -/
theorem C6_empty_system_message_elided (c : MessageContent) (rest : List Message)
    (h : systemTextParts c = [] ∨ systemTextParts c = [""]) :
    convertPromptToInput (Message.system c :: rest) = convertPromptToInput rest ∧
    convertPromptToInput (Message.developer c :: rest) = convertPromptToInput rest := by
  have hj : String.intercalate "\n" (systemTextParts c) = "" := by
    rcases h with h | h <;> rw [h] <;> rfl
  simp [convertPromptToInput, convertMessage, systemLikeItems, hj]

/-- Witness for C6 at a concrete input: a system message with a single
empty text part contributes nothing. -/
theorem C6_witness :
    convertPromptToInput [Message.system (MessageContent.parts [PromptPart.text ""])] =
      convertPromptToInput [] :=
  (C6_empty_system_message_elided (MessageContent.parts [PromptPart.text ""]) []
    (Or.inr rfl)).1

/-- Claim C7: only function-typed tools are translated, each mapping 1:1
to a `{name, description, parameters}` record; the presence of any tool
of a non-function capability kind appends the non-fatal unsupported
warning (the call proceeds); and when the filtered function-tool list
is empty the tools field is omitted (`none`), never an empty array. -/
theorem C7_mapTools (ts : List Tool) (w : List Warning) :
    (mapTools (some ts) w).2 =
      w ++ (if ts.any (fun t => !isFunctionTool t) then [providerToolsWarning] else []) ∧
    (mapTools (some ts) w).1 =
      (if (ts.filter isFunctionTool).length = 0 then none
       else some ((ts.filter isFunctionTool).filterMap fnRecord)) := by
  have hnotfn : ∀ t : Tool, (!isFunctionTool t) = isProviderTool t := by
    intro t; cases t <;> rfl
  have e1 : (0 < (ts.filter isProviderTool).length) ↔
      ((ts.any fun t => !isFunctionTool t) = true) := by
    simp only [hnotfn]
    rw [List.length_pos, Ne, List.filter_eq_nil_iff]
    simp
  rcases ts with _ | ⟨t, ts1⟩
  · refine ⟨by simp [mapTools], by simp [mapTools]⟩
  · have hne : ¬((t :: ts1).length = 0) := by simp
    by_cases hp : 0 < ((t :: ts1).filter isProviderTool).length <;>
      by_cases hf : ((t :: ts1).filter isFunctionTool).length = 0
    · have hb : ((t :: ts1).any fun x => !isFunctionTool x) = true := e1.mp hp
      have hval : mapTools (some (t :: ts1)) w = (none, w ++ [providerToolsWarning]) := by
        simp only [mapTools]
        rw [if_neg hne, if_pos hp, if_pos hf]
      rw [hval, hb, hf]
      exact ⟨rfl, rfl⟩
    · have hb : ((t :: ts1).any fun x => !isFunctionTool x) = true := e1.mp hp
      have hval : mapTools (some (t :: ts1)) w =
          (some (((t :: ts1).filter isFunctionTool).filterMap fnRecord),
            w ++ [providerToolsWarning]) := by
        simp only [mapTools]
        rw [if_neg hne, if_pos hp, if_neg hf]
      rw [hval, hb, if_neg hf]
      exact ⟨rfl, rfl⟩
    · have hb : ((t :: ts1).any fun x => !isFunctionTool x) = false := by
        rcases hb2 : ((t :: ts1).any fun x => !isFunctionTool x) with _ | _
        · rfl
        · exact absurd (e1.mpr hb2) hp
      have hval : mapTools (some (t :: ts1)) w = (none, w) := by
        simp only [mapTools]
        rw [if_neg hne, if_neg hp, if_pos hf]
      rw [hval, hb, hf]
      exact ⟨by simp, rfl⟩
    · have hb : ((t :: ts1).any fun x => !isFunctionTool x) = false := by
        rcases hb2 : ((t :: ts1).any fun x => !isFunctionTool x) with _ | _
        · rfl
        · exact absurd (e1.mpr hb2) hp
      have hval : mapTools (some (t :: ts1)) w =
          (some (((t :: ts1).filter isFunctionTool).filterMap fnRecord), w) := by
        simp only [mapTools]
        rw [if_neg hne, if_neg hp, if_neg hf]
      rw [hval, hb, if_neg hf]
      exact ⟨by simp, rfl⟩

/-- Counterexample to claim C1 as stated: the empty string is a valid
item id, but it is falsy, so each of the three deltas re-triggers
`text-start` (three `text-start` events) and the flush emits no
`text-end`. -/
theorem C1_counterexample :
    reconstruct false
        [Chunk.ok "" (StreamEvent.response_created (sampleResponse ResponseStatus.in_progress)),
         Chunk.ok "" (StreamEvent.output_text_delta "" 0 0 "a"),
         Chunk.ok "" (StreamEvent.output_text_delta "" 0 0 "b"),
         Chunk.ok "" (StreamEvent.output_text_delta "" 0 0 "c"),
         Chunk.ok "" (StreamEvent.response_completed (sampleResponse ResponseStatus.completed))] =
      [NormalizedEvent.responseMetadata "resp1" 100 "m",
       NormalizedEvent.textStart "", NormalizedEvent.textDelta "" "a",
       NormalizedEvent.textStart "", NormalizedEvent.textDelta "" "b",
       NormalizedEvent.textStart "", NormalizedEvent.textDelta "" "c",
       NormalizedEvent.finish (mapUsage sampleUsage)
         { unified := "stop", raw := "completed" } (some "resp1")] ∧
    ((reconstruct false
        [Chunk.ok "" (StreamEvent.response_created (sampleResponse ResponseStatus.in_progress)),
         Chunk.ok "" (StreamEvent.output_text_delta "" 0 0 "a"),
         Chunk.ok "" (StreamEvent.output_text_delta "" 0 0 "b"),
         Chunk.ok "" (StreamEvent.output_text_delta "" 0 0 "c"),
         Chunk.ok "" (StreamEvent.response_completed (sampleResponse ResponseStatus.completed))]).filter
        isTextStart).length = 3 ∧
    ((reconstruct false
        [Chunk.ok "" (StreamEvent.response_created (sampleResponse ResponseStatus.in_progress)),
         Chunk.ok "" (StreamEvent.output_text_delta "" 0 0 "a"),
         Chunk.ok "" (StreamEvent.output_text_delta "" 0 0 "b"),
         Chunk.ok "" (StreamEvent.output_text_delta "" 0 0 "c"),
         Chunk.ok "" (StreamEvent.response_completed (sampleResponse ResponseStatus.completed))]).filter
        isTextEnd).length = 0 := by
  exact ⟨by rfl, by rfl, by rfl⟩

/-- Claim C1 (amended): feeding `response.created`, three
`response.output_text.delta` events with the same NON-EMPTY item id,
then `response.completed` (all passing validation, raw chunks off)
yields exactly one `response-metadata`, one `text-start`, three
`text-delta` whose payloads in order are the three deltas (so their
concatenation is the full text), one `text-end` and one `finish`, in
that order and nothing else.  (With the empty item id — falsy in the
source's truthiness tests — every delta re-opens the segment and no
`text-end` is emitted.) -/
theorem C1_stream_scenario (r1 r2 : VendorResponse) (id d1 d2 d3 : String)
    (raw1 raw2 raw3 raw4 raw5 : String) (o1 o2 o3 i1 i2 i3 : Int)
    (h : id ≠ "") :
    reconstruct false
        [Chunk.ok raw1 (StreamEvent.response_created r1),
         Chunk.ok raw2 (StreamEvent.output_text_delta id o1 i1 d1),
         Chunk.ok raw3 (StreamEvent.output_text_delta id o2 i2 d2),
         Chunk.ok raw4 (StreamEvent.output_text_delta id o3 i3 d3),
         Chunk.ok raw5 (StreamEvent.response_completed r2)] =
      [NormalizedEvent.responseMetadata r1.id r1.created_at r1.model,
       NormalizedEvent.textStart id,
       NormalizedEvent.textDelta id d1,
       NormalizedEvent.textDelta id d2,
       NormalizedEvent.textDelta id d3,
       NormalizedEvent.textEnd id,
       NormalizedEvent.finish (mapUsage r2.usage) (mapFinishReason r2.status false)
         (responseIdMetadata (some r1.id))] ∧
    (reconstruct false
        [Chunk.ok raw1 (StreamEvent.response_created r1),
         Chunk.ok raw2 (StreamEvent.output_text_delta id o1 i1 d1),
         Chunk.ok raw3 (StreamEvent.output_text_delta id o2 i2 d2),
         Chunk.ok raw4 (StreamEvent.output_text_delta id o3 i3 d3),
         Chunk.ok raw5 (StreamEvent.response_completed r2)]).filterMap textDeltaPayload =
      [d1, d2, d3] := by
  have hmain : reconstruct false
      [Chunk.ok raw1 (StreamEvent.response_created r1),
       Chunk.ok raw2 (StreamEvent.output_text_delta id o1 i1 d1),
       Chunk.ok raw3 (StreamEvent.output_text_delta id o2 i2 d2),
       Chunk.ok raw4 (StreamEvent.output_text_delta id o3 i3 d3),
       Chunk.ok raw5 (StreamEvent.response_completed r2)] =
      [NormalizedEvent.responseMetadata r1.id r1.created_at r1.model,
       NormalizedEvent.textStart id,
       NormalizedEvent.textDelta id d1,
       NormalizedEvent.textDelta id d2,
       NormalizedEvent.textDelta id d3,
       NormalizedEvent.textEnd id,
       NormalizedEvent.finish (mapUsage r2.usage) (mapFinishReason r2.status false)
         (responseIdMetadata (some r1.id))] := by
    simp [reconstruct, processChunks, processChunk, processChunkCore,
      flushStream, initState, h]
  refine ⟨hmain, ?_⟩
  rw [hmain]
  simp [textDeltaPayload]

/-- Witness for C1 at a concrete input with a non-empty item id. -/
theorem C1_witness :
    ("it1" : String) ≠ "" ∧
    reconstruct false
        [Chunk.ok "" (StreamEvent.response_created (sampleResponse ResponseStatus.in_progress)),
         Chunk.ok "" (StreamEvent.output_text_delta "it1" 0 0 "Hel"),
         Chunk.ok "" (StreamEvent.output_text_delta "it1" 0 0 "lo"),
         Chunk.ok "" (StreamEvent.output_text_delta "it1" 0 0 "!"),
         Chunk.ok "" (StreamEvent.response_completed (sampleResponse ResponseStatus.completed))] =
      [NormalizedEvent.responseMetadata "resp1" 100 "m",
       NormalizedEvent.textStart "it1",
       NormalizedEvent.textDelta "it1" "Hel",
       NormalizedEvent.textDelta "it1" "lo",
       NormalizedEvent.textDelta "it1" "!",
       NormalizedEvent.textEnd "it1",
       NormalizedEvent.finish (mapUsage sampleUsage)
         (mapFinishReason ResponseStatus.completed false)
         (responseIdMetadata (some "resp1"))] :=
  ⟨by decide,
   (C1_stream_scenario (sampleResponse ResponseStatus.in_progress)
      (sampleResponse ResponseStatus.completed) "it1" "Hel" "lo" "!"
      "" "" "" "" "" 0 0 0 0 0 0 (by decide)).1⟩

/-- Counterexample to claim C3 as stated: after `response.created` and
one delta whose (valid) item id is the empty string, a text segment is
open — a `text-start` was emitted and never closed — yet the flush
emits no `text-end`, because the stored empty id is falsy. -/
theorem C3_counterexample :
    runStream false []
        [Chunk.ok "" (StreamEvent.response_created (sampleResponse ResponseStatus.in_progress)),
         Chunk.ok "" (StreamEvent.output_text_delta "" 0 0 "hi")] =
      [NormalizedEvent.streamStart [],
       NormalizedEvent.responseMetadata "resp1" 100 "m",
       NormalizedEvent.textStart "", NormalizedEvent.textDelta "" "hi"] ∧
    ((runStream false []
        [Chunk.ok "" (StreamEvent.response_created (sampleResponse ResponseStatus.in_progress)),
         Chunk.ok "" (StreamEvent.output_text_delta "" 0 0 "hi")]).filter
        isTextStart).length = 1 ∧
    ((runStream false []
        [Chunk.ok "" (StreamEvent.response_created (sampleResponse ResponseStatus.in_progress)),
         Chunk.ok "" (StreamEvent.output_text_delta "" 0 0 "hi")]).filter
        isTextEnd).length = 0 := by
  exact ⟨by rfl, by rfl, by rfl⟩

/-- Claim C3 (amended): at stream end, (a) if a text segment with a
truthy (non-empty) id is open, a `text-end` for it is emitted (a
segment opened under the empty item id is never closed); (b) if no
validated `response.completed`/`response.failed` chunk arrived, no
`finish` event is emitted at all; (c) otherwise exactly one `finish`
event is emitted, carrying the captured usage, the computed finish
reason (with the other/unknown fallback), and response-id provider
metadata when a truthy response id is known. -/
theorem C3_stream_end_behavior (incl : Bool) (w : List Warning) (cs : List Chunk) :
    (∀ a, (processChunks incl initState cs).1.activeTextId = some a → a ≠ "" →
      NormalizedEvent.textEnd a ∈ runStream incl w cs) ∧
    (hasTerminal cs = false → (runStream incl w cs).filter isFinish = []) ∧
    (hasTerminal cs = true →
      ∃ u, (processChunks incl initState cs).1.usage = some u ∧
        (runStream incl w cs).filter isFinish =
          [NormalizedEvent.finish u
            ((processChunks incl initState cs).1.finishReason.getD
              { unified := "other", raw := "unknown" })
            (responseIdMetadata (processChunks incl initState cs).1.responseId)]) := by
  have hprfin : (processChunks incl initState cs).2.filter isFinish = [] :=
    filter_eq_nil_of_all_false
      (fun e he => (processChunks_mem incl initState cs e he).1)
  refine ⟨?_, ?_, ?_⟩
  · intro a hA ha
    exact List.mem_cons_of_mem _
      (List.mem_append_right _ (flushStream_textEnd_mem _ a hA ha))
  · intro ht
    have hu : (processChunks incl initState cs).1.usage = none := by
      have := processChunks_usage_not_terminal incl initState cs ht
      simpa [initState] using this
    simp only [runStream, reconstruct, List.filter_cons, List.filter_append,
      hprfin, List.nil_append]
    rw [flushStream_filter_isFinish, hu]
    simp [isFinish]
  · intro ht
    have hiss : (processChunks incl initState cs).1.usage.isSome = true := by
      rw [processChunks_usage_isSome]
      simp [initState, ht]
    rcases hu : (processChunks incl initState cs).1.usage with _ | u
    · rw [hu] at hiss
      simp at hiss
    · refine ⟨u, rfl, ?_⟩
      simp only [runStream, reconstruct, List.filter_cons, List.filter_append,
        hprfin, List.nil_append]
      rw [flushStream_filter_isFinish, hu]
      simp [isFinish]

/-- Witness for C3 at a concrete input: a stream with one delta (item
id `"x"`) and no terminal event emits the closing `text-end`. -/
theorem C3_witness :
    NormalizedEvent.textEnd "x" ∈
      runStream false [] [Chunk.ok "" (StreamEvent.output_text_delta "x" 0 0 "hi")] :=
  (C3_stream_end_behavior false []
      [Chunk.ok "" (StreamEvent.output_text_delta "x" 0 0 "hi")]).1 "x" rfl
    (by decide)

/-- Counterexample to claim C4 as stated: a chunk that fails validation
marks the finish reason as error, but a later `response.completed`
recomputes it from the status, so the terminal `finish` event reports
unified "stop", not "error". -/
theorem C4_counterexample :
    (runStream false []
        [Chunk.err "r" "boom",
         Chunk.ok "" (StreamEvent.response_completed (sampleResponse ResponseStatus.completed))]).filter
        isFinish =
      [NormalizedEvent.finish (mapUsage sampleUsage)
        { unified := "stop", raw := "completed" } none] := by rfl

/-- Claim C4 (amended): a chunk failing structural validation yields an
in-band `error` event carrying the failure; the stream is not aborted —
the remaining chunks are still processed and the run decomposes through
them; the finish reason is set to "error" at that point, and the
terminal `finish` event (if one is emitted) reports "error" provided no
later validated `response.completed`/`response.failed` chunk follows
(such a terminal chunk recomputes the reason from its status). -/
theorem C4_invalid_chunk_error (incl : Bool) (w : List Warning)
    (pre post : List Chunk) (r e : String) (hpost : hasTerminal post = false) :
    NormalizedEvent.error e ∈ runStream incl w (pre ++ Chunk.err r e :: post) ∧
    (∀ u fr m, NormalizedEvent.finish u fr m ∈
        runStream incl w (pre ++ Chunk.err r e :: post) →
      fr = { unified := "error", raw := "error" }) ∧
    runStream incl w (pre ++ Chunk.err r e :: post) =
      NormalizedEvent.streamStart w ::
        ((processChunks incl initState pre).2 ++
          ((processChunk incl (processChunks incl initState pre).1 (Chunk.err r e)).2 ++
            ((processChunks incl
                (processChunk incl (processChunks incl initState pre).1
                  (Chunk.err r e)).1 post).2 ++
              flushStream (processChunks incl
                (processChunk incl (processChunks incl initState pre).1
                  (Chunk.err r e)).1 post).1))) := by
  have hdec := processChunks_append incl initState pre (Chunk.err r e :: post)
  have hcons : processChunks incl (processChunks incl initState pre).1
      (Chunk.err r e :: post) =
      ((processChunks incl
          (processChunk incl (processChunks incl initState pre).1 (Chunk.err r e)).1
          post).1,
       (processChunk incl (processChunks incl initState pre).1 (Chunk.err r e)).2 ++
         (processChunks incl
           (processChunk incl (processChunks incl initState pre).1 (Chunk.err r e)).1
           post).2) := rfl
  have hrun : runStream incl w (pre ++ Chunk.err r e :: post) =
      NormalizedEvent.streamStart w ::
        ((processChunks incl initState pre).2 ++
          ((processChunk incl (processChunks incl initState pre).1 (Chunk.err r e)).2 ++
            ((processChunks incl
                (processChunk incl (processChunks incl initState pre).1
                  (Chunk.err r e)).1 post).2 ++
              flushStream (processChunks incl
                (processChunk incl (processChunks incl initState pre).1
                  (Chunk.err r e)).1 post).1))) := by
    simp only [runStream, reconstruct, hdec, hcons, List.append_assoc]
  refine ⟨?_, ?_, hrun⟩
  · rw [hrun]
    have hmem : NormalizedEvent.error e ∈
        (processChunk incl (processChunks incl initState pre).1 (Chunk.err r e)).2 := by
      rw [processChunk_snd]
      exact List.mem_append_right _ (by simp [processChunkCore])
    exact List.mem_cons_of_mem _
      (List.mem_append_right _ (List.mem_append_left _ hmem))
  · intro u fr m hm
    have hfr : (processChunks incl initState (pre ++ Chunk.err r e :: post)).1.finishReason =
        some { unified := "error", raw := "error" } := by
      rw [hdec, hcons]
      exact processChunks_finishReason_latch incl _ post hpost rfl
    simp only [runStream, reconstruct, List.mem_cons, List.mem_append] at hm
    rcases hm with hm | hm | hm
    · exact absurd hm (by simp)
    · have := (processChunks_mem incl initState _ _ hm).1
      simp [isFinish] at this
    · have hmf : NormalizedEvent.finish u fr m ∈
          (flushStream (processChunks incl initState
            (pre ++ Chunk.err r e :: post)).1).filter isFinish :=
        List.mem_filter.mpr ⟨hm, rfl⟩
      rw [flushStream_filter_isFinish] at hmf
      rcases hsu : (processChunks incl initState (pre ++ Chunk.err r e :: post)).1.usage
        with _ | u0
      · rw [hsu] at hmf
        simp at hmf
      · rw [hsu] at hmf
        simp only [List.mem_singleton, NormalizedEvent.finish.injEq] at hmf
        rw [hmf.2.1, hfr]
        rfl

/-- Witness for C4 at a concrete input: an invalid chunk alone yields
the in-band error event. -/
theorem C4_witness :
    hasTerminal ([] : List Chunk) = false ∧
    NormalizedEvent.error "boom" ∈ runStream false [] [Chunk.err "r" "boom"] :=
  ⟨rfl, (C4_invalid_chunk_error false [] [] [] "r" "boom" rfl).1⟩

/-- Counterexample to claim C10 as stated: the empty string is a valid
item id but falsy, so a second delta re-opens the segment — two
`text-start` events — and the second `text-delta` carries `"x"`, not
the item id of the first delta event. -/
theorem C10_counterexample :
    runStream false []
        [Chunk.ok "" (StreamEvent.output_text_delta "" 0 0 "a"),
         Chunk.ok "" (StreamEvent.output_text_delta "x" 0 0 "b")] =
      [NormalizedEvent.streamStart [],
       NormalizedEvent.textStart "", NormalizedEvent.textDelta "" "a",
       NormalizedEvent.textStart "x", NormalizedEvent.textDelta "x" "b",
       NormalizedEvent.textEnd "x"] ∧
    ((runStream false []
        [Chunk.ok "" (StreamEvent.output_text_delta "" 0 0 "a"),
         Chunk.ok "" (StreamEvent.output_text_delta "x" 0 0 "b")]).filter
        isTextStart).length = 2 := by
  exact ⟨by rfl, by rfl⟩

/-- Claim C10 (amended): when every validated `output_text.delta` chunk
carries a non-empty item id, at most one `text-start` and at most one
`text-end` are emitted over the whole stream, and every `text-delta`
carries the item id of the first delta event received. -/
theorem C10_single_text_segment (incl : Bool) (w : List Warning) (cs : List Chunk)
    (h : ∀ i ∈ deltaIds cs, i ≠ "") :
    ((runStream incl w cs).filter isTextStart).length ≤ 1 ∧
    ((runStream incl w cs).filter isTextEnd).length ≤ 1 ∧
    (∀ i d, NormalizedEvent.textDelta i d ∈ runStream incl w cs →
      (deltaIds cs).head? = some i) := by
  obtain ⟨g1, g2, g3⟩ := processChunks_from_none incl initState cs rfl h
  refine ⟨?_, ?_, ?_⟩
  · have hfl : (flushStream (processChunks incl initState cs).1).filter isTextStart = [] :=
      filter_eq_nil_of_all_false
        (fun e he => (flushStream_no_text_events _ e he).1)
    simp only [runStream, reconstruct, List.filter_cons, List.filter_append, hfl,
      List.append_nil, g2]
    rcases (deltaIds cs).head? with _ | i <;> simp [isTextStart]
  · have hpr : (processChunks incl initState cs).2.filter isTextEnd = [] :=
      filter_eq_nil_of_all_false
        (fun e he => (processChunks_mem incl initState cs e he).2)
    simp only [runStream, reconstruct, List.filter_cons, List.filter_append, hpr,
      List.nil_append, flushStream_filter_isTextEnd]
    rcases hA : (processChunks incl initState cs).1.activeTextId with _ | a
    · simp [isTextEnd]
    · by_cases ha : a = "" <;> simp [isTextEnd, ha]
  · intro i d hm
    simp only [runStream, reconstruct, List.mem_cons, List.mem_append] at hm
    rcases hm with hm | hm | hm
    · exact absurd hm (by simp)
    · exact g3 i d hm
    · have := (flushStream_no_text_events _ _ hm).2
      simp [textDeltaPayload] at this

/-- Witness for C10 at a concrete input with a non-empty item id. -/
theorem C10_witness :
    (∀ i ∈ deltaIds [Chunk.ok "" (StreamEvent.output_text_delta "x" 0 0 "hi")], i ≠ "") ∧
    ((runStream false [] [Chunk.ok "" (StreamEvent.output_text_delta "x" 0 0 "hi")]).filter
      isTextStart).length ≤ 1 :=
  ⟨by decide,
   (C10_single_text_segment false []
      [Chunk.ok "" (StreamEvent.output_text_delta "x" 0 0 "hi")] (by decide)).1⟩

end OpenClaw
